import Mathlib

/-!
Verification of the asynchronous image-generation job core
(`src/tools-http-wrapper.ts` HTTP tool wrapper plus the queue consumer,
backed by the `generation_jobs` and `generations` tables of
`migrations/0001_create_tables.sql`).

The embedding is shallow: the two SQLite tables become Lean lists of
records, each SQL statement becomes the corresponding pure list
operation, and the queue consumer's processing of one message becomes a
pure state transformer parameterised by the outcome of the external
synthesis/storage collaborators.
-/

namespace ImageGen

/-- Job status enum, mirroring the CHECK constraint of `generation_jobs`. -/
inductive JobStatus where
  | pending
  | processing
  | completed
  | failed
deriving DecidableEq, Repr

/-- One row of the `generation_jobs` table. -/
structure Job where
  id : String
  status : JobStatus
  prompt : String
  model : String
  image_url : Option String
  error : Option String
  created_at : Nat
  updated_at : Nat
deriving DecidableEq, Repr

/-- The `generation_jobs` table, in insertion order. -/
abbrev Store := List Job

/-- One row of the `generations` archive table. -/
structure Generation where
  id : String
  job_id : String
  image_url : String
  prompt : String
  model : String
  created_at : Nat
deriving DecidableEq, Repr

/-- The `generations` table, in insertion order. -/
abbrev Archive := List Generation

/-- An `ImageGenerationMessage` work unit sent on `IMAGE_QUEUE`. -/
structure Message where
  jobId : String
  prompt : String
  model : String
deriving DecidableEq, Repr

/-- `UPDATE generation_jobs SET ... WHERE id = ?`: apply `f` to every row
whose `id` matches (with the primary key there is at most one). -/
def updateRow (store : Store) (id : String) (f : Job → Job) : Store :=
  store.map (fun j => if j.id = id then f j else j)

/-- `SELECT * FROM generation_jobs WHERE id = ?` returning the first row. -/
def findJob (store : Store) (id : String) : Option Job :=
  store.find? (fun j => j.id = id)

/-- Outcome of the external synthesis + storage collaborators for one
processing attempt: either a public download URL or a thrown error. -/
inductive ProcOutcome where
  | ok (url : String)
  | err (msg : String)
deriving DecidableEq, Repr

/-- The queue consumer's handling of a single message (`queue` in the
consumer module).  Steps, exactly as in the source: mark the job
`processing`; on collaborator success mark it `completed` with the new
`image_url` and append one row to `generations` (fresh id `genId`, same
timestamp `now2`); on collaborator failure mark it `failed` with the
error message.  No step consults the job's current status. -/
def processMessage (store : Store) (arch : Archive) (m : Message)
    (genId : String) (now1 now2 : Nat) (outcome : ProcOutcome) :
    Store × Archive :=
  let store1 := updateRow store m.jobId
    (fun j => { j with status := .processing, updated_at := now1 })
  match outcome with
  | .ok url =>
    let store2 := updateRow store1 m.jobId
      (fun j => { j with status := .completed, image_url := some url,
                         updated_at := now2 })
    (store2, arch ++ [⟨genId, m.jobId, url, m.prompt, m.model, now2⟩])
  | .err msg =>
    let store2 := updateRow store1 m.jobId
      (fun j => { j with status := .failed, error := some msg,
                         updated_at := now2 })
    (store2, arch)

/-- A freshly inserted job row, as written by `generate_image`:
status `pending`, null result and error, equal timestamps. -/
def newJob (id prompt model : String) (now : Nat) : Job :=
  ⟨id, .pending, prompt, model, none, none, now, now⟩

/-- The per-job field invariant claimed by the spec: the result reference
is non-null iff the status is `completed`, and the error detail is
non-null iff the status is `failed`. -/
def fieldInv (j : Job) : Prop :=
  (j.status = .completed ↔ j.image_url ≠ none) ∧
  (j.status = .failed ↔ j.error ≠ none)

instance : DecidablePred fieldInv := fun j => by
  unfold fieldInv
  infer_instance

/-- The store-wide version of `fieldInv`. -/
def storeFieldInv (store : Store) : Prop :=
  ∀ j ∈ store, fieldInv j

instance : DecidablePred storeFieldInv := fun store => by
  unfold storeFieldInv
  infer_instance

/-! Concrete two-delivery trace used to evaluate the consumer at the
re-delivery inputs: a single job is created, its work unit is processed
successfully once, and then the same work unit is delivered again. -/

/-- Store holding the one freshly created job `a`. -/
def exStore0 : Store := [newJob "a" "red apple" "flux-schnell" 0]

/-- The work unit dispatched for job `a`. -/
def exMsg : Message := ⟨"a", "red apple", "flux-schnell"⟩

/-- State after the first (successful) delivery. -/
def exState1 : Store × Archive :=
  processMessage exStore0 [] exMsg "g1" 1 2 (.ok "https://r2/a1.png")

/-- State after a duplicate delivery whose processing attempt fails. -/
def exState2 : Store × Archive :=
  processMessage exState1.1 exState1.2 exMsg "g2" 3 4 (.err "AI error")

/-- State after a duplicate delivery whose processing attempt succeeds. -/
def exState2ok : Store × Archive :=
  processMessage exState1.1 exState1.2 exMsg "g2" 3 4 (.ok "https://r2/a2.png")

/-- C1.  Evaluating the consumer at the failing input: job `a` is
`completed` after its first delivery, yet after a duplicate delivery of
the same work unit whose processing attempt fails, its status has been
overwritten to `failed` — the consumer never checks the current status
before transitioning, so `completed` is not terminal under at-least-once
delivery. -/
theorem completed_status_overwritten_on_redelivery :
    (findJob exState1.1 "a").map Job.status = some .completed ∧
    (findJob exState2.1 "a").map Job.status = some .failed := by
  decide

/-- C2.  Evaluating the consumer at the failing input: after a duplicate
delivery of the work unit of the already-`completed` job `a` is processed
successfully a second time, the `generations` archive holds two records
referencing job `a` — the insert is not guarded by an
already-completed check, so re-delivery duplicates the archive row. -/
theorem duplicate_generation_record_on_redelivery :
    (exState1.2.filter (fun g => g.job_id = "a")).length = 1 ∧
    (exState2ok.2.filter (fun g => g.job_id = "a")).length = 2 := by
  decide

/-- C3 counterexample.  The state reached by create → successful delivery
→ duplicate delivery whose attempt fails is a reachable store state in
which job `a` has status `failed` but still carries the non-null
`image_url` of its earlier success (the `failed` UPDATE does not clear
`image_url`), so the claimed iff between result reference and
`completed` status is false there. -/
theorem field_iff_invariant_violated_after_redelivery :
    ¬ storeFieldInv exState2.1 := by
  decide

/-- C3 amended.  On a first delivery — the processed job's result and
error fields are still null, as `generate_image` created them — one
processing step of the consumer preserves the store-wide field
invariant: result reference non-null iff `completed`, error detail
non-null iff `failed`, for every job in the store. -/
theorem field_iff_invariant_first_delivery (store : Store) (arch : Archive)
    (m : Message) (genId : String) (now1 now2 : Nat) (outcome : ProcOutcome)
    (hinv : storeFieldInv store)
    (hclean : ∀ j ∈ store, j.id = m.jobId →
      j.image_url = none ∧ j.error = none) :
    storeFieldInv (processMessage store arch m genId now1 now2 outcome).1 := by
  intro j' hj'
  cases outcome with
  | ok url =>
    simp only [processMessage, updateRow, List.map_map, List.mem_map,
      Function.comp] at hj'
    obtain ⟨j, hj, heq⟩ := hj'
    by_cases hid : j.id = m.jobId
    · subst heq
      simp only [hid, if_true]
      obtain ⟨hurl, herr⟩ := hclean j hj hid
      constructor
      · simp
      · simp [herr]
    · subst heq
      simp only [hid, if_false]
      exact hinv j hj
  | err msg =>
    simp only [processMessage, updateRow, List.map_map, List.mem_map,
      Function.comp] at hj'
    obtain ⟨j, hj, heq⟩ := hj'
    by_cases hid : j.id = m.jobId
    · subst heq
      simp only [hid, if_true]
      obtain ⟨hurl, herr⟩ := hclean j hj hid
      constructor
      · simp [hurl]
      · simp
    · subst heq
      simp only [hid, if_false]
      exact hinv j hj

/-- Witness for `field_iff_invariant_first_delivery`: the freshly created
one-job store processed once with a successful outcome. -/
theorem field_iff_invariant_first_delivery_witness :
    storeFieldInv (processMessage exStore0 [] exMsg "g1" 1 2
      (.ok "https://r2/a1.png")).1 :=
  field_iff_invariant_first_delivery exStore0 [] exMsg "g1" 1 2
    (.ok "https://r2/a1.png") (by decide) (by decide)

/-! The `wait_for_completion` tool: a polling loop with a count-scaled
deadline.  The store may change between polls (the consumer runs
concurrently), so it is modelled as a function of elapsed time; the DB
query and classification filters are instantaneous, and each sleep
advances elapsed time by exactly the poll interval. -/

/-- `BASE_TIMEOUT` from the source, in milliseconds. -/
def BASE_TIMEOUT : Nat := 60000

/-- `PER_JOB_TIMEOUT` from the source, in milliseconds. -/
def PER_JOB_TIMEOUT : Nat := 3000

/-- `POLL_INTERVAL` from the source, in milliseconds. -/
def POLL_INTERVAL : Nat := 3000

/-- `MAX_WAIT = BASE_TIMEOUT + jobIds.length * PER_JOB_TIMEOUT`. -/
def maxWaitFor (jobIds : List String) : Nat :=
  BASE_TIMEOUT + jobIds.length * PER_JOB_TIMEOUT

/-- Result of `wait_for_completion`, abstracting over the single/multi
response shaping (which only changes which JSON fields carry the same
data). -/
inductive WaitResult where
  | notFound
  | failedJobs (failedRows completedRows : List Job)
  | success (completedRows : List Job)
  | timeout (seconds : Nat)
deriving DecidableEq, Repr

/-- `SELECT * FROM generation_jobs WHERE id IN (...)` at poll time `t`:
the stored rows whose id is among the named ids, each table row at most
once. -/
def queryRows (store : Nat → Store) (jobIds : List String) (t : Nat) :
    List Job :=
  (store t).filter (fun j => jobIds.contains j.id)

/-- `jobs.results.filter(j => j.status === 'failed')`. -/
def failedOf (rows : List Job) : List Job :=
  rows.filter (fun j => j.status = .failed)

/-- `jobs.results.filter(j => j.status === 'completed')`. -/
def completedOf (rows : List Job) : List Job :=
  rows.filter (fun j => j.status = .completed)

/-- `jobs.results.filter(j => j.status === 'pending' || j.status === 'processing')`. -/
def pendingOf (rows : List Job) : List Job :=
  rows.filter (fun j => j.status = .pending ∨ j.status = .processing)

/-- The polling loop of `wait_for_completion`.  Per iteration, exactly as
in the source: while elapsed < MAX_WAIT, query all named jobs; if the
row count differs from the id count return the not-found error; if any
row is `failed` return the failure error (with the completed partial
results); if no row is `pending`/`processing` return success; otherwise
sleep one poll interval.  On deadline expiry return the timeout error
quoting `MAX_WAIT / 1000` seconds (`Math.round` is exact here since
`MAX_WAIT` is a multiple of 1000).  The second component of the result
is the elapsed time at which the call returns.  Fuel makes the recursion
structural; `none` (fuel exhausted) is never reached with the fuel
supplied by `wait_for_completion`. -/
def waitLoopAux (store : Nat → Store) (jobIds : List String)
    (maxWait : Nat) : Nat → Nat → Option (WaitResult × Nat)
  | _, 0 => none
  | elapsed, fuel + 1 =>
    if elapsed < maxWait then
      if (queryRows store jobIds elapsed).length ≠ jobIds.length then
        some (.notFound, elapsed)
      else if 0 < (failedOf (queryRows store jobIds elapsed)).length then
        some (.failedJobs (failedOf (queryRows store jobIds elapsed))
          (completedOf (queryRows store jobIds elapsed)), elapsed)
      else if (pendingOf (queryRows store jobIds elapsed)).length = 0 then
        some (.success (completedOf (queryRows store jobIds elapsed)), elapsed)
      else
        waitLoopAux store jobIds maxWait (elapsed + POLL_INTERVAL) fuel
    else
      some (.timeout (maxWait / 1000), elapsed)

/-- The `wait_for_completion` tool on a list of job ids (a lone `job_id`
is wrapped into a one-element list by the source before the loop). -/
def wait_for_completion (store : Nat → Store) (jobIds : List String) :
    Option (WaitResult × Nat) :=
  waitLoopAux store jobIds (maxWaitFor jobIds) 0 (maxWaitFor jobIds)

/-- First-poll exit: when the first query already returns a row count
different from the id count, the loop returns the not-found error at
once. -/
theorem waitLoopAux_notFound_first (store : Nat → Store)
    (jobIds : List String) (maxWait elapsed fuel : Nat)
    (hfuel : fuel ≠ 0) (he : elapsed < maxWait)
    (hlen : (queryRows store jobIds elapsed).length ≠ jobIds.length) :
    waitLoopAux store jobIds maxWait elapsed fuel =
      some (.notFound, elapsed) := by
  cases fuel with
  | zero => exact absurd rfl hfuel
  | succ f =>
    simp only [waitLoopAux]
    rw [if_pos he, if_pos hlen]

/-- When every poll finds all named jobs, none failed and some still
non-terminal, the loop runs to the deadline and returns the timeout
error at elapsed time exactly `maxWait` (reachable because the deadline
is a multiple of the poll interval away from the start). -/
theorem waitLoopAux_timeout (store : Nat → Store) (jobIds : List String)
    (maxWait : Nat)
    (hfound : ∀ t, (queryRows store jobIds t).length = jobIds.length)
    (hnofail : ∀ t, (failedOf (queryRows store jobIds t)).length = 0)
    (hpend : ∀ t, (pendingOf (queryRows store jobIds t)).length ≠ 0) :
    ∀ fuel c elapsed, elapsed + POLL_INTERVAL * c = maxWait → c < fuel →
    waitLoopAux store jobIds maxWait elapsed fuel =
      some (.timeout (maxWait / 1000), maxWait) := by
  intro fuel
  induction fuel with
  | zero => intro c elapsed _ hcf; omega
  | succ f ih =>
    intro c elapsed hc hcf
    cases c with
    | zero =>
      have he : elapsed = maxWait := by simpa using hc
      simp only [waitLoopAux]
      rw [if_neg (by omega), he]
    | succ d =>
      have he : elapsed < maxWait := by
        have : 0 < POLL_INTERVAL * (d + 1) :=
          Nat.mul_pos (by unfold POLL_INTERVAL; omega) (Nat.succ_pos d)
        omega
      simp only [waitLoopAux]
      rw [if_pos he, if_neg (by simp [hfound elapsed]),
        if_neg (by simp [hnofail elapsed]), if_neg (hpend elapsed)]
      exact ih d (elapsed + POLL_INTERVAL)
        (by rw [Nat.mul_succ] at hc; omega) (by omega)

/-- C4.  For a wait on N named identifiers the deadline is
60000 ms + 3000 ms × N with a 3000 ms poll interval, and when the named
jobs are always present but never all terminal (no poll ever sees a
`failed` row — a failure would instead exit early with the failure
error — and some row is always `pending`/`processing`), the call
returns the timeout error at elapsed time exactly the deadline: no
earlier than the deadline and, a fortiori, no more than one poll
interval after it (the poll schedule hits the deadline exactly because
the deadline is a multiple of the interval). -/
theorem wait_timeout_scaling (store : Nat → Store) (jobIds : List String)
    (_hlen1 : 1 ≤ jobIds.length) (_hlen20 : jobIds.length ≤ 20)
    (hfound : ∀ t, (queryRows store jobIds t).length = jobIds.length)
    (hnofail : ∀ t, (failedOf (queryRows store jobIds t)).length = 0)
    (hpend : ∀ t, (pendingOf (queryRows store jobIds t)).length ≠ 0) :
    maxWaitFor jobIds = 60000 + 3000 * jobIds.length ∧
    POLL_INTERVAL = 3000 ∧
    wait_for_completion store jobIds =
      some (.timeout (maxWaitFor jobIds / 1000), maxWaitFor jobIds) := by
  refine ⟨by unfold maxWaitFor BASE_TIMEOUT PER_JOB_TIMEOUT; ring, rfl, ?_⟩
  exact waitLoopAux_timeout store jobIds (maxWaitFor jobIds) hfound hnofail
    hpend (maxWaitFor jobIds) (20 + jobIds.length) 0
    (by unfold maxWaitFor BASE_TIMEOUT PER_JOB_TIMEOUT POLL_INTERVAL; ring)
    (by unfold maxWaitFor BASE_TIMEOUT PER_JOB_TIMEOUT; omega)

/-- Witness for `wait_timeout_scaling`: one job that stays `pending` at
every poll. -/
theorem wait_timeout_scaling_witness :
    maxWaitFor ["a"] = 60000 + 3000 * (["a"] : List String).length ∧
    POLL_INTERVAL = 3000 ∧
    wait_for_completion
        (fun _ => [newJob "a" "red apple" "flux-schnell" 0]) ["a"] =
      some (.timeout (maxWaitFor ["a"] / 1000), maxWaitFor ["a"]) :=
  wait_timeout_scaling (fun _ => [newJob "a" "red apple" "flux-schnell" 0])
    ["a"] (by decide) (by decide) (fun t => rfl) (fun t => rfl)
    (fun t => by show (1 : Nat) ≠ 0; decide)

/-- The query result inherits distinct ids from the table's primary
key. -/
theorem queryRows_ids_nodup (store : Nat → Store) (jobIds : List String)
    (t : Nat) (hnodup : ((store t).map Job.id).Nodup) :
    ((queryRows store jobIds t).map Job.id).Nodup :=
  List.Nodup.sublist ((List.filter_sublist _).map Job.id) hnodup

/-- The query returns at most one row per distinct named id. -/
theorem queryRows_length_le (store : Nat → Store) (jobIds : List String)
    (t : Nat) (hnodup : ((store t).map Job.id).Nodup) :
    (queryRows store jobIds t).length ≤ jobIds.toFinset.card := by
  have hnd := queryRows_ids_nodup store jobIds t hnodup
  have hsub : ((queryRows store jobIds t).map Job.id).toFinset ⊆
      jobIds.toFinset := by
    intro x hx
    rw [List.mem_toFinset, List.mem_map] at hx
    obtain ⟨j, hj, rfl⟩ := hx
    rw [List.mem_toFinset]
    have hmem := List.mem_filter.mp hj
    simpa using hmem.2
  calc (queryRows store jobIds t).length
      = ((queryRows store jobIds t).map Job.id).length :=
        (List.length_map _ _).symm
    _ = ((queryRows store jobIds t).map Job.id).toFinset.card :=
        (List.toFinset_card_of_nodup hnd).symm
    _ ≤ jobIds.toFinset.card := Finset.card_le_card hsub

/-- C5.  If at least one named identifier is absent from the job store
(whose ids are distinct, being a primary key), `wait_for_completion`
returns the jobs-not-found error on the first poll, at elapsed time 0 —
no poll-interval sleep happens and the scaled timeout is not waited
out. -/
theorem wait_missing_job_fails_fast (store : Nat → Store)
    (jobIds : List String) (hnodup : ((store 0).map Job.id).Nodup)
    (hmissing : ∃ v ∈ jobIds, ∀ j ∈ store 0, j.id ≠ v) :
    wait_for_completion store jobIds = some (.notFound, 0) := by
  obtain ⟨v, hv, habs⟩ := hmissing
  apply waitLoopAux_notFound_first
  · unfold maxWaitFor BASE_TIMEOUT PER_JOB_TIMEOUT; omega
  · unfold maxWaitFor BASE_TIMEOUT PER_JOB_TIMEOUT; omega
  · have hnd := queryRows_ids_nodup store jobIds 0 hnodup
    have hsub : ((queryRows store jobIds 0).map Job.id).toFinset ⊆
        jobIds.toFinset.erase v := by
      intro x hx
      rw [List.mem_toFinset, List.mem_map] at hx
      obtain ⟨j, hj, rfl⟩ := hx
      have hmem := List.mem_filter.mp hj
      rw [Finset.mem_erase, List.mem_toFinset]
      exact ⟨habs j hmem.1, by simpa using hmem.2⟩
    have h2 : (queryRows store jobIds 0).length ≤
        (jobIds.toFinset.erase v).card := by
      calc (queryRows store jobIds 0).length
          = ((queryRows store jobIds 0).map Job.id).length :=
            (List.length_map _ _).symm
        _ = ((queryRows store jobIds 0).map Job.id).toFinset.card :=
            (List.toFinset_card_of_nodup hnd).symm
        _ ≤ (jobIds.toFinset.erase v).card := Finset.card_le_card hsub
    have h3 : (jobIds.toFinset.erase v).card < jobIds.toFinset.card :=
      Finset.card_erase_lt_of_mem (List.mem_toFinset.mpr hv)
    have h4 : jobIds.toFinset.card ≤ jobIds.length :=
      jobIds.toFinset_card_le
    omega

/-- Witness for `wait_missing_job_fails_fast`: waiting on an existing id
together with an unknown one. -/
theorem wait_missing_job_fails_fast_witness :
    wait_for_completion (fun _ => [newJob "a" "red apple" "flux-schnell" 0])
      ["a", "b"] = some (.notFound, 0) :=
  wait_missing_job_fails_fast
    (fun _ => [newJob "a" "red apple" "flux-schnell" 0]) ["a", "b"]
    (by decide) (by decide)

/-- C9.  A `wait_for_completion` call whose job_ids list names the same
existing identifier twice is answered with the jobs-not-found error on
the first poll: the `WHERE id IN` query returns one row per distinct
identifier, while the code compares the row count against the length of
the duplicate-containing list (the all-present hypothesis records the
claimed scenario; the mismatch already follows from the duplicate). -/
theorem wait_duplicate_ids_not_found (store : Nat → Store)
    (jobIds : List String) (hnodup : ((store 0).map Job.id).Nodup)
    (hdup : ¬ jobIds.Nodup)
    (_hall : ∀ v ∈ jobIds, ∃ j ∈ store 0, j.id = v) :
    wait_for_completion store jobIds = some (.notFound, 0) := by
  apply waitLoopAux_notFound_first
  · unfold maxWaitFor BASE_TIMEOUT PER_JOB_TIMEOUT; omega
  · unfold maxWaitFor BASE_TIMEOUT PER_JOB_TIMEOUT; omega
  · have h2 := queryRows_length_le store jobIds 0 hnodup
    have h3 : jobIds.toFinset.card < jobIds.length := by
      rw [List.card_toFinset]
      have hle := (List.dedup_sublist jobIds).length_le
      rcases Nat.lt_or_ge jobIds.dedup.length jobIds.length with h | h
      · exact h
      · exfalso
        apply hdup
        have heq : jobIds.dedup = jobIds :=
          (List.dedup_sublist jobIds).eq_of_length (by omega)
        rw [← heq]
        exact jobIds.nodup_dedup
    omega

/-- Witness for `wait_duplicate_ids_not_found`: the same existing id
listed twice. -/
theorem wait_duplicate_ids_not_found_witness :
    wait_for_completion (fun _ => [newJob "a" "red apple" "flux-schnell" 0])
      ["a", "a"] = some (.notFound, 0) :=
  wait_duplicate_ids_not_found
    (fun _ => [newJob "a" "red apple" "flux-schnell" 0]) ["a", "a"]
    (by decide) (by decide) (by decide)

/-! The `generate_image` tool: zod validation, then a replica loop of
`INSERT INTO generation_jobs` followed by `IMAGE_QUEUE.send`, each of
which may throw.  The id supply stands for `crypto.randomUUID`. -/

/-- Raw `generate_image` arguments before validation: a prompt string
plus the optional model and count fields. -/
structure RawArgs where
  prompt : String
  model : Option String
  count : Option Int
deriving DecidableEq, Repr

/-- Validated `generate_image` parameters, as produced by
`GenerateImageSchema.parse`. -/
structure GenParams where
  prompt : String
  model : String
  count : Nat
deriving DecidableEq, Repr

/-- The model enum of `GenerateImageSchema`. -/
def validModel (s : String) : Bool :=
  s = "flux-schnell" ∨ s = "sdxl-lightning" ∨ s = "sdxl-base"

/-- `GenerateImageSchema.parse`: prompt length in 3..1000, model drawn
from the enum (default `flux-schnell`), count an integer in 1..20
(default 1).  A zod failure throws; the wrapper's catch-all turns the
thrown message into the failure envelope. -/
def parseGenerateImage (a : RawArgs) : Except String GenParams :=
  if a.prompt.length < 3 then
    .error "String must contain at least 3 character(s)"
  else if 1000 < a.prompt.length then
    .error "String must contain at most 1000 character(s)"
  else if validModel (a.model.getD "flux-schnell") = false then
    .error "Invalid enum value"
  else if a.count.getD 1 < 1 then
    .error "Number must be greater than or equal to 1"
  else if 20 < a.count.getD 1 then
    .error "Number must be less than or equal to 20"
  else
    .ok ⟨a.prompt, a.model.getD "flux-schnell", (a.count.getD 1).toNat⟩

/-- Failure injection for the external collaborators used by the replica
loop: whether the i-th `INSERT` and the i-th queue `send` succeed, and
the message of the error thrown on the first failure. -/
structure CreateEnv where
  insertOk : Nat → Bool
  sendOk : Nat → Bool
  failMsg : String

/-- Structured content of the three response envelopes `generate_image`
can produce. -/
inductive GenResponse where
  | singleJob (job_id : String) (status : JobStatus) (prompt model : String)
  | multiJobs (job_ids : List String) (count : Nat) (status : JobStatus)
      (prompt model : String)
  | genericError (msg : String)
deriving DecidableEq, Repr

/-- The replica loop of `generate_image`: for each replica index `i`
(with `r` replicas still to create), push a fresh id, insert the job
row, send the work unit; the first insert/send failure aborts the loop
with the thrown message (last component `some msg`), leaving the state
mutated so far in place. -/
def createLoop (env : CreateEnv) (prompt model : String)
    (ids : Nat → String) (now : Nat) :
    Nat → Nat → Store → List Message → List String →
    Store × List Message × List String × Option String
  | 0, _, store, sent, acc => (store, sent, acc, none)
  | r + 1, i, store, sent, acc =>
    if env.insertOk i then
      if env.sendOk i then
        createLoop env prompt model ids now r (i + 1)
          (store ++ [newJob (ids i) prompt model now])
          (sent ++ [⟨ids i, prompt, model⟩])
          (acc ++ [ids i])
      else
        (store ++ [newJob (ids i) prompt model now], sent,
          acc ++ [ids i], some env.failMsg)
    else
      (store, sent, acc ++ [ids i], some env.failMsg)

/-- Response shaping of `generate_image`: the generic failure envelope
when the loop threw, otherwise the single `job_id` envelope when
count = 1 and the `job_ids` array envelope when count > 1. -/
def shapeResponse (p : GenParams) (acc : List String)
    (err : Option String) : GenResponse :=
  match err with
  | some msg => .genericError msg
  | none =>
    if p.count = 1 then
      .singleJob (acc.headD "") .pending p.prompt p.model
    else
      .multiJobs acc p.count .pending p.prompt p.model

/-- `generate_image` on validated parameters: run the replica loop, then
shape the response from the loop's outcome. -/
def generate_image (env : CreateEnv) (p : GenParams) (ids : Nat → String)
    (now : Nat) (store : Store) : Store × List Message × GenResponse :=
  ((createLoop env p.prompt p.model ids now p.count 0 store [] []).1,
   (createLoop env p.prompt p.model ids now p.count 0 store [] []).2.1,
   shapeResponse p
     (createLoop env p.prompt p.model ids now p.count 0 store [] []).2.2.1
     (createLoop env p.prompt p.model ids now p.count 0 store [] []).2.2.2)

/-- The `generate_image` tool including validation: a zod failure is
caught before any insert or send has happened. -/
def generate_image_tool (env : CreateEnv) (a : RawArgs)
    (ids : Nat → String) (now : Nat) (store : Store) :
    Store × List Message × GenResponse :=
  match parseGenerateImage a with
  | .error e => (store, [], .genericError e)
  | .ok p => generate_image env p ids now store

/-- Running the replica loop through `r` all-successful replicas appends
one pending row, one work unit and one collected id per replica, in
index order. -/
theorem createLoop_ok_prefix (env : CreateEnv) (prompt model : String)
    (ids : Nat → String) (now : Nat) :
    ∀ r r2 i store sent acc,
    (∀ k, i ≤ k → k < i + r → env.insertOk k = true ∧ env.sendOk k = true) →
    createLoop env prompt model ids now (r + r2) i store sent acc =
      createLoop env prompt model ids now r2 (i + r)
        (store ++ (List.range' i r).map
          (fun k => newJob (ids k) prompt model now))
        (sent ++ (List.range' i r).map
          (fun k => (⟨ids k, prompt, model⟩ : Message)))
        (acc ++ (List.range' i r).map ids) := by
  intro r
  induction r with
  | zero =>
    intro r2 i store sent acc _
    simp [List.range']
  | succ r ih =>
    intro r2 i store sent acc h
    have hsum : r + 1 + r2 = (r + r2) + 1 := by omega
    rw [hsum]
    simp only [createLoop]
    rw [if_pos (h i (le_refl i) (by omega)).1,
      if_pos (h i (le_refl i) (by omega)).2]
    rw [ih r2 (i + 1) _ _ _ (fun k hk1 hk2 => h k (by omega) (by omega))]
    have harg : i + 1 + r = i + (r + 1) := by omega
    simp only [harg, List.range'_succ, List.map_cons, List.append_assoc,
      List.singleton_append]

/-- Fully successful run of the replica loop, phrased over `List.range`. -/
theorem createLoop_all_ok (env : CreateEnv) (p : GenParams)
    (ids : Nat → String) (now : Nat) (store : Store)
    (hok : ∀ k, k < p.count → env.insertOk k = true ∧ env.sendOk k = true) :
    createLoop env p.prompt p.model ids now p.count 0 store [] [] =
      (store ++ (List.range p.count).map
        (fun k => newJob (ids k) p.prompt p.model now),
       (List.range p.count).map
        (fun k => (⟨ids k, p.prompt, p.model⟩ : Message)),
       (List.range p.count).map ids,
       none) := by
  have hrun := createLoop_ok_prefix env p.prompt p.model ids now p.count 0 0
    store [] [] (fun k hk1 hk2 => hok k (by omega))
  rw [Nat.add_zero] at hrun
  rw [hrun]
  simp [createLoop, List.range_eq_range']

/-- C7.  A valid `generate_image` call with replication count N in 1..20
(here the i-th `crypto.randomUUID` draw is `ids i`; the draws are fresh
and pairwise distinct, and every insert and send succeeds) appends
exactly N job rows — one per replica, in index order, each `pending`
with null result/error and equal created/updated timestamps — keeps all
job ids unique, dispatches exactly one work unit {id, prompt, model} per
inserted row, and responds with a single `job_id` when N = 1 and with
the ordered `job_ids` list (creation order) when N > 1. -/
theorem generate_image_creates_count_jobs (env : CreateEnv) (p : GenParams)
    (ids : Nat → String) (now : Nat) (store : Store)
    (hc1 : 1 ≤ p.count) (hc20 : p.count ≤ 20)
    (hok : ∀ k, k < p.count → env.insertOk k = true ∧ env.sendOk k = true)
    (hfresh : ∀ k, k < p.count → ids k ∉ store.map Job.id)
    (hinj : ((List.range p.count).map ids).Nodup)
    (hstore : (store.map Job.id).Nodup) :
    (generate_image env p ids now store).1 =
      store ++ (List.range p.count).map
        (fun k => newJob (ids k) p.prompt p.model now) ∧
    ((generate_image env p ids now store).1.map Job.id).Nodup ∧
    (generate_image env p ids now store).2.1 =
      (List.range p.count).map
        (fun k => (⟨ids k, p.prompt, p.model⟩ : Message)) ∧
    (p.count = 1 →
      (generate_image env p ids now store).2.2 =
        .singleJob (ids 0) .pending p.prompt p.model) ∧
    (1 < p.count →
      (generate_image env p ids now store).2.2 =
        .multiJobs ((List.range p.count).map ids) p.count .pending
          p.prompt p.model) := by
  have hrun := createLoop_all_ok env p ids now store hok
  refine ⟨?_, ?_, ?_, ?_, ?_⟩
  · simp only [generate_image, hrun]
  · simp only [generate_image, hrun, List.map_append, List.map_map]
    refine List.Nodup.append hstore ?_ ?_
    · simpa [Function.comp, newJob] using hinj
    · intro a ha1 ha2
      simp only [Function.comp, List.mem_map, List.mem_range] at ha2
      obtain ⟨k, hk, hka⟩ := ha2
      apply hfresh k hk
      simp only [newJob] at hka
      rw [hka]
      exact ha1
  · simp only [generate_image, hrun]
  · intro h1
    simp only [generate_image, hrun, shapeResponse]
    rw [if_pos h1, h1]
    simp
    rfl
  · intro h1
    simp only [generate_image, hrun, shapeResponse,
      if_neg (by omega : ¬ p.count = 1)]

/-- Witness for `generate_image_creates_count_jobs`: two replicas with
distinct fresh ids into an empty store. -/
theorem generate_image_creates_count_jobs_witness :
    (generate_image ⟨fun _ => true, fun _ => true, "err"⟩
        ⟨"red apple", "flux-schnell", 2⟩ (fun i => toString i) 5 []).1 =
      [] ++ (List.range 2).map
        (fun k => newJob (toString k) "red apple" "flux-schnell" 5) ∧
    ((generate_image ⟨fun _ => true, fun _ => true, "err"⟩
        ⟨"red apple", "flux-schnell", 2⟩ (fun i => toString i) 5
        []).1.map Job.id).Nodup ∧
    (generate_image ⟨fun _ => true, fun _ => true, "err"⟩
        ⟨"red apple", "flux-schnell", 2⟩ (fun i => toString i) 5 []).2.1 =
      (List.range 2).map
        (fun k => (⟨toString k, "red apple", "flux-schnell"⟩ : Message)) ∧
    ((2 : Nat) = 1 →
      (generate_image ⟨fun _ => true, fun _ => true, "err"⟩
        ⟨"red apple", "flux-schnell", 2⟩ (fun i => toString i) 5 []).2.2 =
        .singleJob (toString (0 : Nat)) .pending "red apple"
          "flux-schnell") ∧
    ((1 : Nat) < 2 →
      (generate_image ⟨fun _ => true, fun _ => true, "err"⟩
        ⟨"red apple", "flux-schnell", 2⟩ (fun i => toString i) 5 []).2.2 =
        .multiJobs ((List.range 2).map (fun i => toString i)) 2 .pending
          "red apple" "flux-schnell") :=
  generate_image_creates_count_jobs ⟨fun _ => true, fun _ => true, "err"⟩
    ⟨"red apple", "flux-schnell", 2⟩ (fun i => toString i) 5 []
    (by decide) (by decide) (fun k _ => ⟨rfl, rfl⟩)
    (fun k _ => by simp) (by decide) (by decide)

/-- A successful `GenerateImageSchema.parse` certifies every validation
rule. -/
theorem parseGenerateImage_ok_valid (a : RawArgs) (p : GenParams)
    (h : parseGenerateImage a = .ok p) :
    3 ≤ a.prompt.length ∧ a.prompt.length ≤ 1000 ∧
    validModel (a.model.getD "flux-schnell") = true ∧
    (∀ c : Int, a.count = some c → 1 ≤ c ∧ c ≤ 20) := by
  unfold parseGenerateImage at h
  by_cases h1 : a.prompt.length < 3
  · rw [if_pos h1] at h; cases h
  rw [if_neg h1] at h
  by_cases h2 : 1000 < a.prompt.length
  · rw [if_pos h2] at h; cases h
  rw [if_neg h2] at h
  by_cases h3 : validModel (a.model.getD "flux-schnell") = false
  · rw [if_pos h3] at h; cases h
  rw [if_neg h3] at h
  by_cases h4 : a.count.getD 1 < 1
  · rw [if_pos h4] at h; cases h
  rw [if_neg h4] at h
  by_cases h5 : 20 < a.count.getD 1
  · rw [if_pos h5] at h; cases h
  refine ⟨by omega, by omega, by simpa using h3, ?_⟩
  intro c hc
  rw [hc] at h4 h5
  simp only [Option.getD_some] at h4 h5
  omega

/-- Test for the failure envelope shape produced by the wrapper's
catch-all (`success: false` plus the thrown message, nothing else). -/
def isGenericError : GenResponse → Bool
  | .genericError _ => true
  | _ => false

/-- C8.  A `generate_image` call whose input is malformed in any of the
listed ways — empty prompt, prompt over the 1000-character bound, model
outside the enum, or count outside 1..20 — is rejected by the schema
before any collaborator is touched: the tool returns the failure
envelope synchronously, the job store is unchanged, and no work unit is
dispatched. -/
theorem generate_image_validation_no_mutation (env : CreateEnv)
    (a : RawArgs) (ids : Nat → String) (now : Nat) (store : Store)
    (hbad : a.prompt = "" ∨ 1000 < a.prompt.length ∨
      (∃ m, a.model = some m ∧ validModel m = false) ∨
      (∃ c : Int, a.count = some c ∧ (c < 1 ∨ 20 < c))) :
    (generate_image_tool env a ids now store).1 = store ∧
    (generate_image_tool env a ids now store).2.1 = [] ∧
    isGenericError (generate_image_tool env a ids now store).2.2 = true := by
  cases hp : parseGenerateImage a with
  | error e =>
    refine ⟨?_, ?_, ?_⟩ <;> simp [generate_image_tool, hp, isGenericError]
  | ok p =>
    exfalso
    obtain ⟨h3, h1000, hm, hc⟩ := parseGenerateImage_ok_valid a p hp
    rcases hbad with h | h | ⟨m, hm2, hmf⟩ | ⟨c, hc2, hcb⟩
    · rw [h] at h3
      have : ("" : String).length = 0 := rfl
      omega
    · omega
    · rw [hm2] at hm
      simp only [Option.getD_some] at hm
      rw [hmf] at hm
      cases hm
    · have := hc c hc2
      omega

/-- Witness for `generate_image_validation_no_mutation`: the empty
prompt of end-to-end scenario C. -/
theorem generate_image_validation_no_mutation_witness :
    (generate_image_tool ⟨fun _ => true, fun _ => true, "err"⟩
      ⟨"", none, none⟩ (fun i => toString i) 5 []).1 = [] ∧
    (generate_image_tool ⟨fun _ => true, fun _ => true, "err"⟩
      ⟨"", none, none⟩ (fun i => toString i) 5 []).2.1 = [] ∧
    isGenericError (generate_image_tool ⟨fun _ => true, fun _ => true, "err"⟩
      ⟨"", none, none⟩ (fun i => toString i) 5 []).2.2 = true :=
  generate_image_validation_no_mutation
    ⟨fun _ => true, fun _ => true, "err"⟩ ⟨"", none, none⟩
    (fun i => toString i) 5 [] (Or.inl rfl)

/-- A replica loop whose first insert/send failure happens at replica
index `k` stops there: the `k` earlier replicas are fully created and
dispatched, the `k`-th row is inserted exactly when its insert (rather
than its send) did not fail, and the loop reports the thrown message. -/
theorem createLoop_fail_at (env : CreateEnv) (p : GenParams)
    (ids : Nat → String) (now : Nat) (store : Store) (k : Nat)
    (hkN : k < p.count)
    (hpre : ∀ j, j < k → env.insertOk j = true ∧ env.sendOk j = true)
    (hfail : env.insertOk k = false ∨ env.sendOk k = false) :
    createLoop env p.prompt p.model ids now p.count 0 store [] [] =
      (store ++ (List.range k).map
          (fun j => newJob (ids j) p.prompt p.model now)
        ++ (if env.insertOk k = true
            then [newJob (ids k) p.prompt p.model now] else []),
       (List.range k).map (fun j => (⟨ids j, p.prompt, p.model⟩ : Message)),
       (List.range k).map ids ++ [ids k],
       some env.failMsg) := by
  have hsplit : p.count = k + (p.count - k - 1 + 1) := by omega
  rw [hsplit,
    createLoop_ok_prefix env p.prompt p.model ids now k _ 0 store [] []
      (fun j hj1 hj2 => hpre j (by omega))]
  simp only [Nat.zero_add, List.nil_append]
  by_cases hi : env.insertOk k = true
  · have hs : env.sendOk k = false := by
      rcases hfail with h | h
      · rw [h] at hi; cases hi
      · exact h
    simp only [createLoop]
    rw [if_pos hi, if_neg (by simp [hs]), if_pos hi]
    simp [List.range_eq_range', List.append_assoc]
  · simp only [createLoop]
    rw [if_neg hi, if_neg (by simpa using hi)]
    simp [List.range_eq_range', List.append_assoc]

/-- C10.  Batch creation is not atomic: when the insert or the dispatch
send throws at replica index k (0-based, so the claim's i-th replica is
k = i−1, with at least one replica already created), the k already
created jobs stay inserted as `pending` rows with their work units
dispatched, while the caller receives only the generic failure envelope
carrying the thrown message — an envelope that is the same for every id
supply and hence contains none of the already-created identifiers. -/
theorem generate_image_batch_not_atomic (env : CreateEnv) (p : GenParams)
    (ids : Nat → String) (now : Nat) (store : Store) (k : Nat)
    (_hk1 : 1 ≤ k) (hkN : k < p.count)
    (hpre : ∀ j, j < k → env.insertOk j = true ∧ env.sendOk j = true)
    (hfail : env.insertOk k = false ∨ env.sendOk k = false) :
    (generate_image env p ids now store).1 =
      store ++ (List.range k).map
          (fun j => newJob (ids j) p.prompt p.model now)
        ++ (if env.insertOk k = true
            then [newJob (ids k) p.prompt p.model now] else []) ∧
    (generate_image env p ids now store).2.1 =
      (List.range k).map
        (fun j => (⟨ids j, p.prompt, p.model⟩ : Message)) ∧
    (generate_image env p ids now store).2.2 =
      .genericError env.failMsg ∧
    (∀ ids2 : Nat → String,
      (generate_image env p ids2 now store).2.2 =
        .genericError env.failMsg) := by
  have hrun := createLoop_fail_at env p ids now store k hkN hpre hfail
  refine ⟨?_, ?_, ?_, fun ids2 => ?_⟩
  · simp only [generate_image, hrun]
  · simp only [generate_image, hrun]
  · simp only [generate_image, hrun, shapeResponse]
  · have hrun2 := createLoop_fail_at env p ids2 now store k hkN hpre hfail
    simp only [generate_image, hrun2, shapeResponse]

/-- Witness for `generate_image_batch_not_atomic`: three replicas whose
second insert fails. -/
theorem generate_image_batch_not_atomic_witness :
    (generate_image ⟨fun i => i = 0, fun _ => true, "D1 error"⟩
        ⟨"red apple", "flux-schnell", 3⟩ (fun i => toString i) 5 []).1 =
      [] ++ (List.range 1).map
          (fun j => newJob (toString j) "red apple" "flux-schnell" 5)
        ++ (if (decide ((1 : Nat) = 0)) = true
            then [newJob (toString (1 : Nat)) "red apple" "flux-schnell" 5]
            else []) ∧
    (generate_image ⟨fun i => i = 0, fun _ => true, "D1 error"⟩
        ⟨"red apple", "flux-schnell", 3⟩ (fun i => toString i) 5 []).2.1 =
      (List.range 1).map
        (fun j => (⟨toString j, "red apple", "flux-schnell"⟩ : Message)) ∧
    (generate_image ⟨fun i => i = 0, fun _ => true, "D1 error"⟩
        ⟨"red apple", "flux-schnell", 3⟩ (fun i => toString i) 5 []).2.2 =
      .genericError "D1 error" ∧
    (generate_image ⟨fun i => i = 0, fun _ => true, "D1 error"⟩
        ⟨"red apple", "flux-schnell", 3⟩ (fun _ => "w") 5 []).2.2 =
      .genericError "D1 error" :=
  have h := generate_image_batch_not_atomic
    ⟨fun i => i = 0, fun _ => true, "D1 error"⟩
    ⟨"red apple", "flux-schnell", 3⟩ (fun i => toString i) 5 [] 1
    (by decide) (by decide)
    (fun j hj => by
      have hj0 : j = 0 := by omega
      subst hj0
      exact ⟨rfl, rfl⟩)
    (Or.inl rfl)
  ⟨h.1, h.2.1, h.2.2.1, h.2.2.2 (fun _ => "w")⟩

/-! The `list_jobs` and `list_generations` tools: a COUNT(*) over the
(optionally status-filtered) table plus a page query
`ORDER BY created_at DESC LIMIT ? OFFSET ?`.  `ORDER BY` is modelled as
a merge sort by descending creation time (one admissible ordering of
rows with equal keys). -/

/-- Descending creation-time comparison for jobs. -/
def byCreatedDesc (a b : Job) : Bool := b.created_at ≤ a.created_at

/-- Descending creation-time comparison for generations. -/
def genByCreatedDesc (a b : Generation) : Bool := b.created_at ≤ a.created_at

/-- The fields of a list response envelope. -/
structure ListResult (α : Type) where
  total_count : Nat
  returned_count : Nat
  has_more : Bool
  limit : Nat
  offset : Nat
  rows : List α

/-- The optional status filter of `list_jobs` (`'all'` is `none`). -/
def filteredJobs (store : Store) (statusFilter : Option JobStatus) :
    Store :=
  match statusFilter with
  | none => store
  | some s => store.filter (fun j => j.status = s)

/-- The `list_jobs` tool on validated parameters. -/
def list_jobs (store : Store) (statusFilter : Option JobStatus)
    (limit offset : Nat) : ListResult Job :=
  let filtered := filteredJobs store statusFilter
  let page := ((filtered.mergeSort byCreatedDesc).drop offset).take limit
  ⟨filtered.length, page.length,
    decide (offset + page.length < filtered.length), limit, offset, page⟩

/-- The `list_generations` tool on validated parameters (no filter). -/
def list_generations (arch : Archive) (limit offset : Nat) :
    ListResult Generation :=
  let page := ((arch.mergeSort genByCreatedDesc).drop offset).take limit
  ⟨arch.length, page.length, decide (offset + page.length < arch.length),
    limit, offset, page⟩

/-- C6.  For any validated limit/offset over a fixed store state, both
list tools return `returned_count = min(limit, total_count − offset)`
(the natural subtraction being the `max(0, ·)` of the claim),
`has_more = (offset + returned_count < total_count)`, and a page ordered
by creation time descending. -/
theorem pagination_consistency (store : Store) (arch : Archive)
    (statusFilter : Option JobStatus) (limit offset : Nat)
    (_hl1 : 1 ≤ limit) (_hl50 : limit ≤ 50) :
    (list_jobs store statusFilter limit offset).returned_count =
      min limit
        ((list_jobs store statusFilter limit offset).total_count - offset) ∧
    ((list_jobs store statusFilter limit offset).has_more = true ↔
      offset + (list_jobs store statusFilter limit offset).returned_count <
        (list_jobs store statusFilter limit offset).total_count) ∧
    List.Pairwise (fun a b => b.created_at ≤ a.created_at)
      (list_jobs store statusFilter limit offset).rows ∧
    (list_generations arch limit offset).returned_count =
      min limit ((list_generations arch limit offset).total_count - offset) ∧
    ((list_generations arch limit offset).has_more = true ↔
      offset + (list_generations arch limit offset).returned_count <
        (list_generations arch limit offset).total_count) ∧
    List.Pairwise (fun a b => b.created_at ≤ a.created_at)
      (list_generations arch limit offset).rows := by
  refine ⟨?_, ?_, ?_, ?_, ?_, ?_⟩
  · simp only [list_jobs, List.length_take, List.length_drop,
      List.length_mergeSort]
    try omega
  · simp only [list_jobs, decide_eq_true_eq]
  · have hs := @List.sorted_mergeSort Job byCreatedDesc
      (fun a b c hab hbc => by
        simp only [byCreatedDesc, decide_eq_true_eq] at *; omega)
      (fun a b => by
        simp only [byCreatedDesc, Bool.or_eq_true, decide_eq_true_eq]; omega)
      (filteredJobs store statusFilter)
    have hsub :
        (list_jobs store statusFilter limit offset).rows.Sublist
          ((filteredJobs store statusFilter).mergeSort byCreatedDesc) :=
      (List.take_sublist _ _).trans (List.drop_sublist _ _)
    exact (List.Pairwise.sublist hsub hs).imp
      (fun h => by simpa [byCreatedDesc] using h)
  · simp only [list_generations, List.length_take, List.length_drop,
      List.length_mergeSort]
    try omega
  · simp only [list_generations, decide_eq_true_eq]
  · have hs := @List.sorted_mergeSort Generation genByCreatedDesc
      (fun a b c hab hbc => by
        simp only [genByCreatedDesc, decide_eq_true_eq] at *; omega)
      (fun a b => by
        simp only [genByCreatedDesc, Bool.or_eq_true, decide_eq_true_eq]
        omega)
      arch
    have hsub :
        (list_generations arch limit offset).rows.Sublist
          (arch.mergeSort genByCreatedDesc) :=
      (List.take_sublist _ _).trans (List.drop_sublist _ _)
    exact (List.Pairwise.sublist hsub hs).imp
      (fun h => by simpa [genByCreatedDesc] using h)

/-- Witness for `pagination_consistency`: three jobs and two archive
rows, limit 2 and offset 1. -/
theorem pagination_consistency_witness :
    (list_jobs [newJob "a" "p1" "flux-schnell" 3,
        newJob "b" "p2" "flux-schnell" 7,
        newJob "c" "p3" "flux-schnell" 5] none 2 1).returned_count =
      min 2
        ((list_jobs [newJob "a" "p1" "flux-schnell" 3,
          newJob "b" "p2" "flux-schnell" 7,
          newJob "c" "p3" "flux-schnell" 5] none 2 1).total_count - 1) ∧
    ((list_jobs [newJob "a" "p1" "flux-schnell" 3,
        newJob "b" "p2" "flux-schnell" 7,
        newJob "c" "p3" "flux-schnell" 5] none 2 1).has_more = true ↔
      1 + (list_jobs [newJob "a" "p1" "flux-schnell" 3,
          newJob "b" "p2" "flux-schnell" 7,
          newJob "c" "p3" "flux-schnell" 5] none 2 1).returned_count <
        (list_jobs [newJob "a" "p1" "flux-schnell" 3,
          newJob "b" "p2" "flux-schnell" 7,
          newJob "c" "p3" "flux-schnell" 5] none 2 1).total_count) ∧
    List.Pairwise (fun a b => b.created_at ≤ a.created_at)
      (list_jobs [newJob "a" "p1" "flux-schnell" 3,
        newJob "b" "p2" "flux-schnell" 7,
        newJob "c" "p3" "flux-schnell" 5] none 2 1).rows ∧
    (list_generations [⟨"g1", "a", "u1", "p1", "flux-schnell", 4⟩,
        ⟨"g2", "b", "u2", "p2", "flux-schnell", 9⟩] 2 1).returned_count =
      min 2
        ((list_generations [⟨"g1", "a", "u1", "p1", "flux-schnell", 4⟩,
          ⟨"g2", "b", "u2", "p2", "flux-schnell", 9⟩] 2 1).total_count
          - 1) ∧
    ((list_generations [⟨"g1", "a", "u1", "p1", "flux-schnell", 4⟩,
        ⟨"g2", "b", "u2", "p2", "flux-schnell", 9⟩] 2 1).has_more = true ↔
      1 + (list_generations [⟨"g1", "a", "u1", "p1", "flux-schnell", 4⟩,
          ⟨"g2", "b", "u2", "p2", "flux-schnell", 9⟩] 2 1).returned_count <
        (list_generations [⟨"g1", "a", "u1", "p1", "flux-schnell", 4⟩,
          ⟨"g2", "b", "u2", "p2", "flux-schnell", 9⟩] 2 1).total_count) ∧
    List.Pairwise (fun a b => b.created_at ≤ a.created_at)
      (list_generations [⟨"g1", "a", "u1", "p1", "flux-schnell", 4⟩,
        ⟨"g2", "b", "u2", "p2", "flux-schnell", 9⟩] 2 1).rows :=
  pagination_consistency
    [newJob "a" "p1" "flux-schnell" 3, newJob "b" "p2" "flux-schnell" 7,
      newJob "c" "p3" "flux-schnell" 5]
    [⟨"g1", "a", "u1", "p1", "flux-schnell", 4⟩,
      ⟨"g2", "b", "u2", "p2", "flux-schnell", 9⟩]
    none 2 1 (by decide) (by decide)

end ImageGen
